import Mathlib

/-!
Verification of the orchestration layer of spartan-zkinterface.

The repository's `src/main.rs` drives a zkinterface-to-Spartan pipeline:
it reads three files (inputs header, constraint system, witness), parses
them into an `R1cs` value, checks satisfiability, and then runs either the
direct ("NIZK", flag `--nizk`) or the preprocessing ("SNARK", flag
`--snark`, also the default) proof protocol of the libspartan backend,
finally verifying the proof when the mode argument is `verify`.

We embed `main` shallowly as a pure function from an abstract environment
(the command-line arguments, the file system, and the results returned by
the black-box cryptographic backend) to the trace of externally visible
calls it makes together with its final outcome (clean completion or a
Rust panic/assertion abort).  The backend itself (libspartan's `prove`,
`verify`, `encode`, `is_sat`) and the Fiat-Shamir transcript are out of
scope per the specification and appear only as uninterpreted results
carried in the environment; every call to them is recorded as an event
with its exact arguments, so that ordering and data-flow claims can be
stated about the trace.
-/

namespace SpartanZkif

/-- Rust `Result<A, E>` as returned by fallible backend calls. -/
inductive RResult (α : Type) (ε : Type) where
  | Ok : α → RResult α ε
  | Err : ε → RResult α ε
deriving DecidableEq, Repr

/-- Modelled from the spec: the `lib` module (`R1csReader`, `R1cs`) is not
under `src/`; per spec section 3, a parsed circuit carries the shape counts
(`num_constraints`, `num_variables`, `num_public_inputs`), three sparse
matrices of (row, column, coefficient) triples, and the split assignment
(public inputs and private variables), field elements abstracted as
naturals. -/
structure R1cs where
  numCons : Nat
  numVars : Nat
  numInputs : Nat
  matA : List (Nat × Nat × Nat)
  matB : List (Nat × Nat × Nat)
  matC : List (Nat × Nat × Nat)
  inputsVals : List Nat
  varsVals : List Nat
deriving DecidableEq, Repr

/-- Setup parameters for the direct (NIZK) variant. -/
structure NIZKGens where
  numCons : Nat
  numVars : Nat
  numInputs : Nat
deriving DecidableEq, Repr

/-- Setup parameters for the preprocessing (SNARK) variant. -/
structure SNARKGens where
  numCons : Nat
  numVars : Nat
  numInputs : Nat
deriving DecidableEq, Repr

/-- Modelled from the spec: `R1cs::nizk_public_params` lives in the missing
`lib` module; spec section 4.3 specifies it as a pure function of
`(num_constraints, num_variables, num_public_inputs)` only. -/
def R1cs.nizk_public_params (r : R1cs) : NIZKGens :=
  ⟨r.numCons, r.numVars, r.numInputs⟩

/-- Modelled from the spec: `R1cs::snark_public_params` lives in the missing
`lib` module; spec section 4.3 specifies it as a pure function of
`(num_constraints, num_variables, num_public_inputs)` only. -/
def R1cs.snark_public_params (r : R1cs) : SNARKGens :=
  ⟨r.numCons, r.numVars, r.numInputs⟩

/-- Opaque SNARK commitment produced by `SNARK::encode` (public half). -/
structure Commitment where
  id : Nat
deriving DecidableEq, Repr

/-- Opaque SNARK decommitment produced by `SNARK::encode` (prover-private
half); a distinct type from `Commitment`, as in the backend. -/
structure Decommitment where
  id : Nat
deriving DecidableEq, Repr

/-- Which party a `Transcript::new` call belongs to. -/
inductive Role where
  | prover
  | verifier
deriving DecidableEq, Repr

/-- Externally visible actions of `main`, recorded in program order with
the exact arguments the source passes. -/
inductive Event where
  /-- the call eprintln of the usage string -/
  | printUsage
  /-- the call `File::open(path)` -/
  | openFile (path : String)
  /-- the calls `R1csReader::new` and `R1cs::from` -/
  | parseCircuit
  /-- the call `inst.is_sat(&assignment_vars, &assignment_inputs)` with its result -/
  | isSatCheck (result : RResult Bool String)
  /-- the call `r1cs.nizk_public_params()` -/
  | nizkParamsCall (gens : NIZKGens)
  /-- the call `r1cs.snark_public_params()` -/
  | snarkParamsCall (gens : SNARKGens)
  /-- the call `SNARK::encode(&inst, &gens)` with the pair it returns -/
  | encodeCall (comm : Commitment) (decomm : Decommitment)
  /-- the call `Transcript::new(label)` -/
  | newTranscript (role : Role) (label : String)
  /-- the call `NIZK::prove(&inst, assignment_vars, &assignment_inputs, ..)` -/
  | nizkProveCall (inputs : List Nat)
  /-- the NIZK call `proof.verify(&inst, &assignment_inputs, ..)` -/
  | nizkVerifyCall (inputs : List Nat)
  /-- the call `SNARK::prove(&inst, &decomm, assignment_vars, &assignment_inputs, ..)` -/
  | snarkProveCall (decomm : Decommitment) (inputs : List Nat)
  /-- the SNARK call `proof.verify(&comm, &assignment_inputs, ..)` -/
  | snarkVerifyCall (comm : Commitment) (inputs : List Nat)
deriving DecidableEq, Repr

/-- The distinct ways the Rust process aborts. -/
inductive PanicReason where
  /-- an `Option::unwrap` on a missing command-line argument -/
  | unwrapMissingArg
  /-- a `File::open(..).unwrap()` on a file that cannot be opened -/
  | unwrapFileOpen
  /-- the explicit panic "Circuit should be satisfied by assignments" -/
  | unsatCircuit
  /-- the explicit panic on `is_sat` returning `Err(e)` -/
  | evalError
  /-- a failed `assert!(proof.verify(..).is_ok())` -/
  | assertFailed
deriving DecidableEq, Repr

/-- How a run of `main` ends. -/
inductive Outcome where
  | finished
  | panicked (reason : PanicReason)
deriving DecidableEq, Repr

/-- The inputs `main` consumes: its command line, the file system, and the
answers of the black-box cryptographic backend (libspartan), which the
spec places out of scope.  `isSatFn` is the backend's satisfiability
verdict for the parsed circuit, `snarkEncode` the commitment pair returned
by `SNARK::encode`, and the two `VerifyOk` flags whether the backend's
`verify` calls return `Ok`. -/
structure Env where
  args : List String
  files : String → Option (List Nat)
  parseFn : List Nat → List Nat → List Nat → R1cs
  isSatFn : R1cs → RResult Bool String
  snarkEncode : R1cs → Commitment × Decommitment
  nizkVerifyOk : Bool
  snarkVerifyOk : Bool

/-- Fixed transcript label of the direct variant (`b"nizk_example"`). -/
def nizkLabel : String := "nizk_example"

/-- Fixed transcript label of the preprocessing variant
(`b"snark_example"`). -/
def snarkLabel : String := "snark_example"

/-- Lines 23-30 of `main.rs`: the variant-flag match on `args.get(2)`.
`--nizk` selects the direct variant, `--snark` the preprocessing one; any
other value, or a missing argument, falls to the default arm, which sets
`nizk = false` and prints the usage message. -/
def parseVariantFlag (args : List String) : Bool × List Event :=
  match args.get? 2 with
  | some v =>
      if v = "--nizk" then (true, [])
      else if v = "--snark" then (false, [])
      else (false, [Event.printUsage])
  | none => (false, [Event.printUsage])

/-- Lines 74-108 of `main.rs`: the direct (NIZK) branch.  Derives the
direct parameters, creates the prover transcript with the fixed label,
calls `NIZK::prove`, then matches the mode argument `args.get(1).unwrap()`:
`prove` just reports, `verify` creates the verifier transcript with the
same label and asserts that `proof.verify` succeeded, anything else prints
the usage message.  (The `bincode::serialize(..).unwrap()` calls on the
freshly produced proof are treated as succeeding: serialization of an
in-memory value is out of scope.) -/
def nizkBranch (env : Env) (r : R1cs) : List Event × Outcome :=
  let inputs := r.inputsVals
  let tr : List Event :=
    [Event.nizkParamsCall r.nizk_public_params,
     Event.newTranscript Role.prover nizkLabel,
     Event.nizkProveCall inputs]
  match env.args.get? 1 with
  | none => (tr, Outcome.panicked PanicReason.unwrapMissingArg)
  | some mode =>
      if mode = "prove" then (tr, Outcome.finished)
      else if mode = "verify" then
        let tr := tr ++ [Event.newTranscript Role.verifier nizkLabel,
                         Event.nizkVerifyCall inputs]
        if env.nizkVerifyOk then (tr, Outcome.finished)
        else (tr, Outcome.panicked PanicReason.assertFailed)
      else (tr ++ [Event.printUsage], Outcome.finished)

/-- Lines 109-142 of `main.rs`: the preprocessing (SNARK) branch.  Derives
the preprocessing parameters, calls `SNARK::encode` obtaining the
commitment/decommitment pair, creates the prover transcript with the fixed
label, calls `SNARK::prove` with the decommitment, then matches the mode
argument: `verify` creates the verifier transcript with the same label and
asserts that `proof.verify` against the commitment succeeded. -/
def snarkBranch (env : Env) (r : R1cs) : List Event × Outcome :=
  let inputs := r.inputsVals
  let cd := env.snarkEncode r
  let tr : List Event :=
    [Event.snarkParamsCall r.snark_public_params,
     Event.encodeCall cd.1 cd.2,
     Event.newTranscript Role.prover snarkLabel,
     Event.snarkProveCall cd.2 inputs]
  match env.args.get? 1 with
  | none => (tr, Outcome.panicked PanicReason.unwrapMissingArg)
  | some mode =>
      if mode = "prove" then (tr, Outcome.finished)
      else if mode = "verify" then
        let tr := tr ++ [Event.newTranscript Role.verifier snarkLabel,
                         Event.snarkVerifyCall cd.1 inputs]
        if env.snarkVerifyOk then (tr, Outcome.finished)
        else (tr, Outcome.panicked PanicReason.assertFailed)
      else (tr ++ [Event.printUsage], Outcome.finished)

/-- the function `main` of `src/main.rs` as a pure function of the environment,
returning the trace of events in program order and the final outcome.
Faithful to the source order: the usage string unwraps `args.get(0)`, the
variant flag is matched, the three path arguments are unwrapped, the three
files are opened (inputs file first, then circuit, then witness, lines
36-44), the circuit is parsed, `is_sat` is checked and its failure panics,
and only then one of the two protocol branches runs.  (`read_to_end` on an
already-open file is treated as succeeding.) -/
def main (env : Env) : List Event × Outcome :=
  match env.args.get? 0 with
  | none => ([], Outcome.panicked PanicReason.unwrapMissingArg)
  | some _ =>
  let nizkTr := parseVariantFlag env.args
  let tr0 := nizkTr.2
  match env.args.get? 3 with
  | none => (tr0, Outcome.panicked PanicReason.unwrapMissingArg)
  | some circuitfn =>
  match env.args.get? 4 with
  | none => (tr0, Outcome.panicked PanicReason.unwrapMissingArg)
  | some inputsfn =>
  match env.args.get? 5 with
  | none => (tr0, Outcome.panicked PanicReason.unwrapMissingArg)
  | some witnessfn =>
  let tr1 := tr0 ++ [Event.openFile inputsfn]
  match env.files inputsfn with
  | none => (tr1, Outcome.panicked PanicReason.unwrapFileOpen)
  | some bufh =>
  let tr2 := tr1 ++ [Event.openFile circuitfn]
  match env.files circuitfn with
  | none => (tr2, Outcome.panicked PanicReason.unwrapFileOpen)
  | some bufcs =>
  let tr3 := tr2 ++ [Event.openFile witnessfn]
  match env.files witnessfn with
  | none => (tr3, Outcome.panicked PanicReason.unwrapFileOpen)
  | some bufw =>
  let r := env.parseFn bufh bufcs bufw
  let tr4 := tr3 ++ [Event.parseCircuit]
  let res := env.isSatFn r
  let tr5 := tr4 ++ [Event.isSatCheck res]
  match res with
  | RResult.Ok false => (tr5, Outcome.panicked PanicReason.unsatCircuit)
  | RResult.Err _ => (tr5, Outcome.panicked PanicReason.evalError)
  | RResult.Ok true =>
      let br := if nizkTr.1 then nizkBranch env r else snarkBranch env r
      (tr5 ++ br.1, br.2)

/-- The event trace of a run. -/
def mainTrace (env : Env) : List Event := (main env).1

/-- The final outcome of a run. -/
def mainOutcome (env : Env) : Outcome := (main env).2

/-- Is this event one of the two `prove` calls? -/
def Event.isProve : Event → Bool
  | Event.nizkProveCall _ => true
  | Event.snarkProveCall _ _ => true
  | _ => false

/-- Is this event one of the two `verify` calls? -/
def Event.isVerify : Event → Bool
  | Event.nizkVerifyCall _ => true
  | Event.snarkVerifyCall _ _ => true
  | _ => false

/-- The public-input assignment argument of a prove/verify call. -/
def Event.inputsArg : Event → Option (List Nat)
  | Event.nizkProveCall i => some i
  | Event.snarkProveCall _ i => some i
  | Event.nizkVerifyCall i => some i
  | Event.snarkVerifyCall _ i => some i
  | _ => none

/-- The `R1cs` value the run parses, when the run gets as far as parsing:
all three path arguments are present and all three files open. -/
def Env.pipelineR1cs (env : Env) : Option R1cs :=
  match env.args.get? 3, env.args.get? 4, env.args.get? 5 with
  | some circuitfn, some inputsfn, some witnessfn =>
      match env.files inputsfn, env.files circuitfn, env.files witnessfn with
      | some bufh, some bufcs, some bufw => some (env.parseFn bufh bufcs bufw)
      | _, _, _ => none
  | _, _, _ => none

/-- The events `main` emits before the satisfiability check, on a run that
reaches the pipeline: the possible usage message from the variant-flag
match, the three file opens, the parse. -/
def preTrace (env : Env) : List Event :=
  (parseVariantFlag env.args).2 ++
    (match env.args.get? 3, env.args.get? 4, env.args.get? 5 with
     | some circuitfn, some inputsfn, some witnessfn =>
         [Event.openFile inputsfn, Event.openFile circuitfn,
          Event.openFile witnessfn]
     | _, _, _ => []) ++ [Event.parseCircuit]

/-- The branch `main` selects after a positive satisfiability check. -/
def chosenBranch (env : Env) (r : R1cs) : List Event × Outcome :=
  if (parseVariantFlag env.args).1 then nizkBranch env r else snarkBranch env r

/-- Continuation of the run after the `is_sat` event. -/
def satCont (env : Env) (r : R1cs) : List Event × Outcome :=
  match env.isSatFn r with
  | RResult.Ok true => chosenBranch env r
  | RResult.Ok false => ([], Outcome.panicked PanicReason.unsatCircuit)
  | RResult.Err _ => ([], Outcome.panicked PanicReason.evalError)

/-- On a run that reaches the pipeline, `main` is exactly: the pre-pipeline
events, the `is_sat` event, then the continuation determined by the
satisfiability verdict. -/
theorem main_pipeline {env : Env} {r : R1cs} (hr : env.pipelineR1cs = some r) :
    main env = (preTrace env ++ Event.isSatCheck (env.isSatFn r) :: (satCont env r).1,
                (satCont env r).2) := by
  unfold Env.pipelineR1cs at hr
  rcases h3 : env.args.get? 3 with _ | circuitfn <;> rw [h3] at hr
  · simp at hr
  rcases h4 : env.args.get? 4 with _ | inputsfn <;> rw [h4] at hr
  · simp at hr
  rcases h5 : env.args.get? 5 with _ | witnessfn <;> rw [h5] at hr
  · simp at hr
  simp only at hr
  rcases hfi : env.files inputsfn with _ | bufh <;> rw [hfi] at hr
  · simp at hr
  rcases hfc : env.files circuitfn with _ | bufcs <;> rw [hfc] at hr
  · simp at hr
  rcases hfw : env.files witnessfn with _ | bufw <;> rw [hfw] at hr
  · simp at hr
  simp only [Option.some.injEq] at hr
  have h0 : ∃ a, env.args.get? 0 = some a := by
    have hlen : 3 < env.args.length := (List.get?_eq_some.mp h3).1
    rcases h0 : env.args.get? 0 with _ | a
    · exact absurd (List.get?_eq_none.mp h0) (by omega)
    · exact ⟨a, rfl⟩
  rcases h0 with ⟨a0, h0⟩
  unfold main preTrace satCont
  simp only [h0, h3, h4, h5]
  simp only [hfi, hfc, hfw, hr]
  rcases hres : env.isSatFn r with b | e
  · cases b <;> simp [hres, chosenBranch]
  · simp [hres]

/-- The variant-flag match emits at most the usage message. -/
theorem mem_parseVariantFlag {args : List String} {e : Event}
    (he : e ∈ (parseVariantFlag args).2) : e = Event.printUsage := by
  unfold parseVariantFlag at he
  rcases h2 : args.get? 2 with _ | v
  · simp only [h2] at he; simpa using he
  · simp only [h2] at he
    by_cases hv1 : v = "--nizk"
    · simp [hv1] at he
    · by_cases hv2 : v = "--snark"
      · simp [hv1, hv2] at he
      · simp only [if_neg hv1, if_neg hv2] at he; simpa using he

/-- Every pre-pipeline event is a usage print, a file open, or the parse. -/
theorem mem_preTrace_kinds {env : Env} {e : Event} (he : e ∈ preTrace env) :
    e = Event.printUsage ∨ (∃ q, e = Event.openFile q) ∨ e = Event.parseCircuit := by
  unfold preTrace at he
  rw [List.append_assoc, List.mem_append] at he
  rcases he with he | he
  · exact Or.inl (mem_parseVariantFlag he)
  · rw [List.mem_append] at he
    rcases he with he | he
    · rcases h3 : env.args.get? 3 with _ | c <;> rw [h3] at he
      · simp at he
      rcases h4 : env.args.get? 4 with _ | i <;> rw [h4] at he
      · simp at he
      rcases h5 : env.args.get? 5 with _ | w <;> rw [h5] at he
      · simp at he
      simp only [List.mem_cons, List.mem_singleton] at he
      rcases he with rfl | rfl | rfl | he
      · exact Or.inr (Or.inl ⟨i, rfl⟩)
      · exact Or.inr (Or.inl ⟨c, rfl⟩)
      · exact Or.inr (Or.inl ⟨w, rfl⟩)
      · simp at he
    · simp only [List.mem_singleton] at he
      exact Or.inr (Or.inr he)

/-- On a pipeline run, each file-open event in the pre-pipeline trace is
of a file that does open. -/
theorem mem_preTrace_openFile {env : Env} {r : R1cs}
    (hr : env.pipelineR1cs = some r) {p : String}
    (he : Event.openFile p ∈ preTrace env) : ∃ b, env.files p = some b := by
  unfold Env.pipelineR1cs at hr
  rcases h3 : env.args.get? 3 with _ | circuitfn <;> rw [h3] at hr
  · simp at hr
  rcases h4 : env.args.get? 4 with _ | inputsfn <;> rw [h4] at hr
  · simp at hr
  rcases h5 : env.args.get? 5 with _ | witnessfn <;> rw [h5] at hr
  · simp at hr
  simp only at hr
  rcases hfi : env.files inputsfn with _ | bufh <;> rw [hfi] at hr
  · simp at hr
  rcases hfc : env.files circuitfn with _ | bufcs <;> rw [hfc] at hr
  · simp at hr
  rcases hfw : env.files witnessfn with _ | bufw <;> rw [hfw] at hr
  · simp at hr
  unfold preTrace at he
  simp only [h3, h4, h5, List.append_assoc, List.mem_append, List.mem_cons,
    List.not_mem_nil, or_false, Event.openFile.injEq, reduceCtorEq] at he
  rcases he with he | rfl | rfl | rfl
  · exact absurd (mem_parseVariantFlag he) (by simp)
  · exact ⟨bufh, hfi⟩
  · exact ⟨bufcs, hfc⟩
  · exact ⟨bufw, hfw⟩

/-- A run that never reaches the pipeline panics on a missing argument
having printed at most the usage message, or panics on a file it could
not open having printed at most the usage message and file opens. -/
theorem main_no_pipeline {env : Env} (hr : env.pipelineR1cs = none) :
    ((main env).2 = Outcome.panicked PanicReason.unwrapMissingArg ∧
        ∀ e ∈ (main env).1, e = Event.printUsage) ∨
    ((main env).2 = Outcome.panicked PanicReason.unwrapFileOpen ∧
        ∀ e ∈ (main env).1, e = Event.printUsage ∨ ∃ q, e = Event.openFile q) := by
  unfold main
  rcases h0 : env.args.get? 0 with _ | a0 <;> simp only [h0]
  · exact Or.inl ⟨by trivial, by simp⟩
  rcases h3 : env.args.get? 3 with _ | circuitfn <;> simp only [h3]
  · exact Or.inl ⟨by trivial, fun e he => mem_parseVariantFlag he⟩
  rcases h4 : env.args.get? 4 with _ | inputsfn <;> simp only [h4]
  · exact Or.inl ⟨by trivial, fun e he => mem_parseVariantFlag he⟩
  rcases h5 : env.args.get? 5 with _ | witnessfn <;> simp only [h5]
  · exact Or.inl ⟨by trivial, fun e he => mem_parseVariantFlag he⟩
  rcases hfi : env.files inputsfn with _ | bufh <;> simp only [hfi]
  · refine Or.inr ⟨by trivial, fun e he => ?_⟩
    rw [List.mem_append] at he
    rcases he with he | he
    · exact Or.inl (mem_parseVariantFlag he)
    · simp only [List.mem_singleton] at he; exact Or.inr ⟨inputsfn, he⟩
  rcases hfc : env.files circuitfn with _ | bufcs <;> simp only [hfc]
  · refine Or.inr ⟨by trivial, fun e he => ?_⟩
    rw [List.append_assoc, List.mem_append] at he
    rcases he with he | he
    · exact Or.inl (mem_parseVariantFlag he)
    · simp only [List.mem_append, List.mem_singleton] at he
      rcases he with he | he
      · exact Or.inr ⟨inputsfn, by simpa using he⟩
      · exact Or.inr ⟨circuitfn, he⟩
  rcases hfw : env.files witnessfn with _ | bufw <;> simp only [hfw]
  · refine Or.inr ⟨by trivial, fun e he => ?_⟩
    simp only [List.append_assoc, List.mem_append, List.mem_singleton] at he
    rcases he with he | he | he | he
    · exact Or.inl (mem_parseVariantFlag he)
    · exact Or.inr ⟨inputsfn, by simpa using he⟩
    · exact Or.inr ⟨circuitfn, by simpa using he⟩
    · exact Or.inr ⟨witnessfn, he⟩
  · exfalso
    unfold Env.pipelineR1cs at hr
    rw [h3, h4, h5] at hr
    simp only at hr
    rw [hfi, hfc, hfw] at hr
    simp at hr

/-- Enumeration of the events the direct branch can emit. -/
theorem mem_nizkBranch {env : Env} {r : R1cs} {e : Event}
    (he : e ∈ (nizkBranch env r).1) :
    e = Event.nizkParamsCall r.nizk_public_params ∨
    e = Event.newTranscript Role.prover nizkLabel ∨
    e = Event.nizkProveCall r.inputsVals ∨
    e = Event.newTranscript Role.verifier nizkLabel ∨
    e = Event.nizkVerifyCall r.inputsVals ∨
    e = Event.printUsage := by
  unfold nizkBranch at he
  rcases h1 : env.args.get? 1 with _ | mode <;> simp only [h1] at he
  · simp at he; tauto
  by_cases hm1 : mode = "prove"
  · simp only [if_pos hm1] at he; simp at he; tauto
  by_cases hm2 : mode = "verify"
  · simp only [if_neg hm1, if_pos hm2] at he
    cases hv : env.nizkVerifyOk <;> simp only [hv] at he <;> simp at he <;> tauto
  · simp only [if_neg hm1, if_neg hm2] at he; simp at he; tauto

/-- Enumeration of the events the preprocessing branch can emit. -/
theorem mem_snarkBranch {env : Env} {r : R1cs} {e : Event}
    (he : e ∈ (snarkBranch env r).1) :
    e = Event.snarkParamsCall r.snark_public_params ∨
    e = Event.encodeCall (env.snarkEncode r).1 (env.snarkEncode r).2 ∨
    e = Event.newTranscript Role.prover snarkLabel ∨
    e = Event.snarkProveCall (env.snarkEncode r).2 r.inputsVals ∨
    e = Event.newTranscript Role.verifier snarkLabel ∨
    e = Event.snarkVerifyCall (env.snarkEncode r).1 r.inputsVals ∨
    e = Event.printUsage := by
  unfold snarkBranch at he
  rcases h1 : env.args.get? 1 with _ | mode <;> simp only [h1] at he
  · simp at he; tauto
  by_cases hm1 : mode = "prove"
  · simp only [if_pos hm1] at he; simp at he; tauto
  by_cases hm2 : mode = "verify"
  · simp only [if_neg hm1, if_pos hm2] at he
    cases hv : env.snarkVerifyOk <;> simp only [hv] at he <;> simp at he <;> tauto
  · simp only [if_neg hm1, if_neg hm2] at he; simp at he; tauto

/-- The direct branch always begins with parameter derivation, the prover
transcript, and the prove call. -/
theorem nizkBranch_prefix (env : Env) (r : R1cs) :
    ∃ rest, (nizkBranch env r).1 =
      Event.nizkParamsCall r.nizk_public_params ::
      Event.newTranscript Role.prover nizkLabel ::
      Event.nizkProveCall r.inputsVals :: rest := by
  unfold nizkBranch
  rcases h1 : env.args.get? 1 with _ | mode <;> simp only [h1]
  · exact ⟨[], rfl⟩
  by_cases hm1 : mode = "prove"
  · simp only [if_pos hm1]; exact ⟨[], rfl⟩
  by_cases hm2 : mode = "verify"
  · simp only [if_neg hm1, if_pos hm2]
    cases hv : env.nizkVerifyOk <;>
      exact ⟨[Event.newTranscript Role.verifier nizkLabel,
              Event.nizkVerifyCall r.inputsVals], by simp⟩
  · simp only [if_neg hm1, if_neg hm2]; exact ⟨[Event.printUsage], rfl⟩

/-- The preprocessing branch always begins with parameter derivation, the
encode call, the prover transcript, and the prove call carrying the
decommitment. -/
theorem snarkBranch_prefix (env : Env) (r : R1cs) :
    ∃ rest, (snarkBranch env r).1 =
      Event.snarkParamsCall r.snark_public_params ::
      Event.encodeCall (env.snarkEncode r).1 (env.snarkEncode r).2 ::
      Event.newTranscript Role.prover snarkLabel ::
      Event.snarkProveCall (env.snarkEncode r).2 r.inputsVals :: rest := by
  unfold snarkBranch
  rcases h1 : env.args.get? 1 with _ | mode <;> simp only [h1]
  · exact ⟨[], rfl⟩
  by_cases hm1 : mode = "prove"
  · simp only [if_pos hm1]; exact ⟨[], rfl⟩
  by_cases hm2 : mode = "verify"
  · simp only [if_neg hm1, if_pos hm2]
    cases hv : env.snarkVerifyOk <;>
      exact ⟨[Event.newTranscript Role.verifier snarkLabel,
              Event.snarkVerifyCall (env.snarkEncode r).1 r.inputsVals], by simp⟩
  · simp only [if_neg hm1, if_neg hm2]; exact ⟨[Event.printUsage], rfl⟩

/-- If the direct branch reached its verify call and the backend said no,
the branch ends in the failed assertion. -/
theorem nizkBranch_verifyFail {env : Env} {r : R1cs} {i : List Nat}
    (hi : Event.nizkVerifyCall i ∈ (nizkBranch env r).1)
    (hv : env.nizkVerifyOk = false) :
    (nizkBranch env r).2 = Outcome.panicked PanicReason.assertFailed := by
  unfold nizkBranch at hi ⊢
  rcases h1 : env.args.get? 1 with _ | mode <;> simp only [h1] at hi ⊢
  · simp at hi
  by_cases hm1 : mode = "prove"
  · simp only [if_pos hm1] at hi; simp at hi
  by_cases hm2 : mode = "verify"
  · simp only [if_neg hm1, if_pos hm2, hv] at hi ⊢; simp
  · simp only [if_neg hm1, if_neg hm2] at hi; simp at hi

/-- If the preprocessing branch reached its verify call and the backend
said no, the branch ends in the failed assertion. -/
theorem snarkBranch_verifyFail {env : Env} {r : R1cs} {c : Commitment}
    {i : List Nat}
    (hi : Event.snarkVerifyCall c i ∈ (snarkBranch env r).1)
    (hv : env.snarkVerifyOk = false) :
    (snarkBranch env r).2 = Outcome.panicked PanicReason.assertFailed := by
  unfold snarkBranch at hi ⊢
  rcases h1 : env.args.get? 1 with _ | mode <;> simp only [h1] at hi ⊢
  · simp at hi
  by_cases hm1 : mode = "prove"
  · simp only [if_pos hm1] at hi; simp at hi
  by_cases hm2 : mode = "verify"
  · simp only [if_neg hm1, if_pos hm2, hv] at hi ⊢; simp
  · simp only [if_neg hm1, if_neg hm2] at hi; simp at hi

/-- Is this event one that only a protocol branch can emit? -/
def Event.isBranchEvent : Event → Bool
  | Event.printUsage => false
  | Event.openFile _ => false
  | Event.parseCircuit => false
  | Event.isSatCheck _ => false
  | _ => true

/-- Any branch-only event in the trace pins down the whole run: the
pipeline was reached with a parsed circuit `r`, `is_sat` answered
`Ok(true)`, the event lies in the selected branch, and the run is the
pre-pipeline trace, the satisfiability event, then that branch. -/
theorem branch_event_cases {env : Env} {e : Event} (he : e ∈ (main env).1)
    (hb : e.isBranchEvent = true) :
    ∃ r, env.pipelineR1cs = some r ∧ env.isSatFn r = RResult.Ok true ∧
      e ∈ (chosenBranch env r).1 ∧
      main env = (preTrace env ++
          Event.isSatCheck (RResult.Ok true) :: (chosenBranch env r).1,
        (chosenBranch env r).2) := by
  rcases hp : env.pipelineR1cs with _ | r
  · rcases main_no_pipeline hp with ⟨-, hall⟩ | ⟨-, hall⟩
    · rcases hall e he with rfl; simp [Event.isBranchEvent] at hb
    · rcases hall e he with rfl | ⟨q, rfl⟩ <;> simp [Event.isBranchEvent] at hb
  · have hm := main_pipeline hp
    rw [hm] at he
    simp only [List.mem_append, List.mem_cons] at he
    rcases he with he | rfl | he
    · rcases mem_preTrace_kinds he with rfl | ⟨q, rfl⟩ | rfl <;>
        simp [Event.isBranchEvent] at hb
    · simp [Event.isBranchEvent] at hb
    · unfold satCont at he hm
      rcases hres : env.isSatFn r with b | err

      · cases b
        · rw [hres] at he; simp at he
        · rw [hres] at he hm
          exact ⟨r, by simp [hp], hres, he, hm⟩
      · rw [hres] at he; simp at he

/-- Events of the satisfiability continuation lie in the selected branch,
and only exist when the check passed. -/
theorem mem_satCont {env : Env} {r : R1cs} {e : Event}
    (he : e ∈ (satCont env r).1) :
    env.isSatFn r = RResult.Ok true ∧ e ∈ (chosenBranch env r).1 := by
  unfold satCont at he
  rcases hres : env.isSatFn r with b | err
  · cases b <;> rw [hres] at he
    · simp at he
    · exact ⟨rfl, he⟩
  · rw [hres] at he; simp at he

/-- A protocol branch never opens files, never runs the satisfiability
check, and never parses. -/
theorem chosenBranch_no_pre {env : Env} {r : R1cs} {e : Event}
    (he : e ∈ (chosenBranch env r).1) :
    (∀ p, e ≠ Event.openFile p) ∧ (∀ res, e ≠ Event.isSatCheck res) ∧
      e ≠ Event.parseCircuit := by
  unfold chosenBranch at he
  by_cases hf : (parseVariantFlag env.args).1 = true
  · rw [if_pos hf] at he
    rcases mem_nizkBranch he with rfl | rfl | rfl | rfl | rfl | rfl <;>
      exact ⟨fun p => by simp, fun res => by simp, by simp⟩
  · rw [if_neg hf] at he
    rcases mem_snarkBranch he with rfl | rfl | rfl | rfl | rfl | rfl | rfl <;>
      exact ⟨fun p => by simp, fun res => by simp, by simp⟩

/-- A file-open event on a file that does not open forces the
`File::open(..).unwrap()` abort. -/
theorem fileOpen_panic {env : Env} {p : String}
    (hp : Event.openFile p ∈ (main env).1) (hf : env.files p = none) :
    (main env).2 = Outcome.panicked PanicReason.unwrapFileOpen := by
  rcases hpr : env.pipelineR1cs with _ | r
  · rcases main_no_pipeline hpr with ⟨-, hall⟩ | ⟨hout, -⟩
    · exact absurd (hall _ hp) (by simp)
    · exact hout
  · have hm := main_pipeline hpr
    rw [hm] at hp
    simp only [List.mem_append, List.mem_cons] at hp
    rcases hp with hp | hp | hp
    · rcases mem_preTrace_openFile hpr hp with ⟨b, hb⟩
      rw [hb] at hf; cases hf
    · cases hp
    · exact absurd rfl ((chosenBranch_no_pre (mem_satCont hp).2).1 p)

/-- An `Ok(false)` satisfiability event forces the "Circuit should be
satisfied by assignments" panic. -/
theorem unsat_panic {env : Env}
    (hp : Event.isSatCheck (RResult.Ok false) ∈ (main env).1) :
    (main env).2 = Outcome.panicked PanicReason.unsatCircuit := by
  rcases hpr : env.pipelineR1cs with _ | r
  · rcases main_no_pipeline hpr with ⟨-, hall⟩ | ⟨-, hall⟩
    · exact absurd (hall _ hp) (by simp)
    · rcases hall _ hp with h | ⟨q, h⟩ <;> simp at h
  · have hm := main_pipeline hpr
    rw [hm] at hp
    simp only [List.mem_append, List.mem_cons] at hp
    rcases hp with hp | hp | hp
    · rcases mem_preTrace_kinds hp with h | ⟨q, h⟩ | h <;> simp at h
    · rw [hm]
      have hres : env.isSatFn r = RResult.Ok false := (Event.isSatCheck.inj hp).symm
      unfold satCont
      rw [hres]
    · exact absurd rfl ((chosenBranch_no_pre (mem_satCont hp).2).2.1 _)

/-- An `Err` satisfiability event forces the `std::panic!(e)` abort. -/
theorem evalErr_panic {env : Env} {msg : String}
    (hp : Event.isSatCheck (RResult.Err msg) ∈ (main env).1) :
    (main env).2 = Outcome.panicked PanicReason.evalError := by
  rcases hpr : env.pipelineR1cs with _ | r
  · rcases main_no_pipeline hpr with ⟨-, hall⟩ | ⟨-, hall⟩
    · exact absurd (hall _ hp) (by simp)
    · rcases hall _ hp with h | ⟨q, h⟩ <;> simp at h
  · have hm := main_pipeline hpr
    rw [hm] at hp
    simp only [List.mem_append, List.mem_cons] at hp
    rcases hp with hp | hp | hp
    · rcases mem_preTrace_kinds hp with h | ⟨q, h⟩ | h <;> simp at h
    · rw [hm]
      have hres : env.isSatFn r = RResult.Err msg := (Event.isSatCheck.inj hp).symm
      unfold satCont
      rw [hres]
    · exact absurd rfl ((chosenBranch_no_pre (mem_satCont hp).2).2.1 _)

/-- A NIZK verify call whose backend verdict is negative forces the failed
`assert!`. -/
theorem verifyFail_nizk {env : Env} {i : List Nat}
    (hi : Event.nizkVerifyCall i ∈ (main env).1)
    (hv : env.nizkVerifyOk = false) :
    (main env).2 = Outcome.panicked PanicReason.assertFailed := by
  rcases branch_event_cases hi (by simp [Event.isBranchEvent]) with
    ⟨r, hpr, hres, hb, hm⟩
  have hout : (main env).2 = (chosenBranch env r).2 := by rw [hm]
  unfold chosenBranch at hb hout
  by_cases hf : (parseVariantFlag env.args).1 = true
  · rw [if_pos hf] at hb hout
    rw [hout]
    exact nizkBranch_verifyFail hb hv
  · rw [if_neg hf] at hb
    rcases mem_snarkBranch hb with h | h | h | h | h | h | h <;> simp at h

/-- A SNARK verify call whose backend verdict is negative forces the
failed `assert!`. -/
theorem verifyFail_snark {env : Env} {c : Commitment} {i : List Nat}
    (hi : Event.snarkVerifyCall c i ∈ (main env).1)
    (hv : env.snarkVerifyOk = false) :
    (main env).2 = Outcome.panicked PanicReason.assertFailed := by
  rcases branch_event_cases hi (by simp [Event.isBranchEvent]) with
    ⟨r, hpr, hres, hb, hm⟩
  have hout : (main env).2 = (chosenBranch env r).2 := by rw [hm]
  unfold chosenBranch at hb hout
  by_cases hf : (parseVariantFlag env.args).1 = true
  · rw [if_pos hf] at hb
    rcases mem_nizkBranch hb with h | h | h | h | h | h <;> simp at h
  · rw [if_neg hf] at hb hout
    rw [hout]
    exact snarkBranch_verifyFail hb hv

/-- A transcript event pins the variant flag and the label: direct runs
use the direct label, preprocessing runs the preprocessing label. -/
theorem transcript_mem_elim {env : Env} {r : R1cs} {role : Role} {l : String}
    (h : Event.newTranscript role l ∈ (chosenBranch env r).1) :
    ((parseVariantFlag env.args).1 = true ∧ l = nizkLabel) ∨
    ((parseVariantFlag env.args).1 = false ∧ l = snarkLabel) := by
  unfold chosenBranch at h
  by_cases hf : (parseVariantFlag env.args).1 = true
  · rw [if_pos hf] at h
    rcases mem_nizkBranch h with h | h | h | h | h | h <;> simp at h <;>
      exact Or.inl ⟨hf, h.2⟩
  · rw [if_neg hf] at h
    rcases mem_snarkBranch h with h | h | h | h | h | h | h <;> simp at h <;>
      exact Or.inr ⟨by simpa using hf, h.2⟩

/-- A NIZK prove event pins the flag to the direct variant and its
argument to the parsed public assignment. -/
theorem nizkProve_mem_elim {env : Env} {r : R1cs} {i : List Nat}
    (h : Event.nizkProveCall i ∈ (chosenBranch env r).1) :
    (parseVariantFlag env.args).1 = true ∧ i = r.inputsVals := by
  unfold chosenBranch at h
  by_cases hf : (parseVariantFlag env.args).1 = true
  · rw [if_pos hf] at h
    rcases mem_nizkBranch h with h | h | h | h | h | h <;> simp at h
    exact ⟨hf, h⟩
  · rw [if_neg hf] at h
    rcases mem_snarkBranch h with h | h | h | h | h | h | h <;> simp at h

/-- A NIZK verify event pins the flag to the direct variant and its
argument to the parsed public assignment. -/
theorem nizkVerify_mem_elim {env : Env} {r : R1cs} {i : List Nat}
    (h : Event.nizkVerifyCall i ∈ (chosenBranch env r).1) :
    (parseVariantFlag env.args).1 = true ∧ i = r.inputsVals := by
  unfold chosenBranch at h
  by_cases hf : (parseVariantFlag env.args).1 = true
  · rw [if_pos hf] at h
    rcases mem_nizkBranch h with h | h | h | h | h | h <;> simp at h
    exact ⟨hf, h⟩
  · rw [if_neg hf] at h
    rcases mem_snarkBranch h with h | h | h | h | h | h | h <;> simp at h

/-- A SNARK prove event pins the flag to the preprocessing variant, its
decommitment to the encode result, and its argument to the parsed public
assignment. -/
theorem snarkProve_mem_elim {env : Env} {r : R1cs} {d : Decommitment}
    {i : List Nat} (h : Event.snarkProveCall d i ∈ (chosenBranch env r).1) :
    (parseVariantFlag env.args).1 = false ∧ d = (env.snarkEncode r).2 ∧
      i = r.inputsVals := by
  unfold chosenBranch at h
  by_cases hf : (parseVariantFlag env.args).1 = true
  · rw [if_pos hf] at h
    rcases mem_nizkBranch h with h | h | h | h | h | h <;> simp at h
  · rw [if_neg hf] at h
    rcases mem_snarkBranch h with h | h | h | h | h | h | h <;> simp at h
    exact ⟨by simpa using hf, h.1, h.2⟩

/-- A SNARK verify event pins the flag to the preprocessing variant, its
commitment to the encode result, and its argument to the parsed public
assignment. -/
theorem snarkVerify_mem_elim {env : Env} {r : R1cs} {c : Commitment}
    {i : List Nat} (h : Event.snarkVerifyCall c i ∈ (chosenBranch env r).1) :
    (parseVariantFlag env.args).1 = false ∧ c = (env.snarkEncode r).1 ∧
      i = r.inputsVals := by
  unfold chosenBranch at h
  by_cases hf : (parseVariantFlag env.args).1 = true
  · rw [if_pos hf] at h
    rcases mem_nizkBranch h with h | h | h | h | h | h <;> simp at h
  · rw [if_neg hf] at h
    rcases mem_snarkBranch h with h | h | h | h | h | h | h <;> simp at h
    exact ⟨by simpa using hf, h.1, h.2⟩

/-- An encode event pins the flag to the preprocessing variant and its
pair to the encode result. -/
theorem encode_mem_elim {env : Env} {r : R1cs} {c : Commitment}
    {d : Decommitment} (h : Event.encodeCall c d ∈ (chosenBranch env r).1) :
    (parseVariantFlag env.args).1 = false ∧ c = (env.snarkEncode r).1 ∧
      d = (env.snarkEncode r).2 := by
  unfold chosenBranch at h
  by_cases hf : (parseVariantFlag env.args).1 = true
  · rw [if_pos hf] at h
    rcases mem_nizkBranch h with h | h | h | h | h | h <;> simp at h
  · rw [if_neg hf] at h
    rcases mem_snarkBranch h with h | h | h | h | h | h | h <;> simp at h
    exact ⟨by simpa using hf, h.1, h.2⟩

/-- A variant flag that is neither `--nizk` nor `--snark` (or a missing
one) selects the preprocessing variant and prints the usage message. -/
theorem parseVariantFlag_bad {args : List String}
    (hflag : ∀ v, args.get? 2 = some v → v ≠ "--nizk" ∧ v ≠ "--snark") :
    parseVariantFlag args = (false, [Event.printUsage]) := by
  unfold parseVariantFlag
  rcases h2 : args.get? 2 with _ | v
  · rfl
  · rcases hflag v h2 with ⟨hv1, hv2⟩
    simp only [if_neg hv1, if_neg hv2]

/-- With an unrecognized mode the preprocessing branch still derives
parameters, encodes, and proves, then prints the usage message and
finishes. -/
theorem snarkBranch_badMode {env : Env} {r : R1cs} {m : String}
    (h1 : env.args.get? 1 = some m) (hm1 : m ≠ "prove") (hm2 : m ≠ "verify") :
    snarkBranch env r =
      ([Event.snarkParamsCall r.snark_public_params,
        Event.encodeCall (env.snarkEncode r).1 (env.snarkEncode r).2,
        Event.newTranscript Role.prover snarkLabel,
        Event.snarkProveCall (env.snarkEncode r).2 r.inputsVals,
        Event.printUsage], Outcome.finished) := by
  unfold snarkBranch
  simp only [h1, if_neg hm1, if_neg hm2]
  rfl

/-- With an unrecognized mode the direct branch still derives parameters
and proves, then prints the usage message and finishes. -/
theorem nizkBranch_badMode {env : Env} {r : R1cs} {m : String}
    (h1 : env.args.get? 1 = some m) (hm1 : m ≠ "prove") (hm2 : m ≠ "verify") :
    nizkBranch env r =
      ([Event.nizkParamsCall r.nizk_public_params,
        Event.newTranscript Role.prover nizkLabel,
        Event.nizkProveCall r.inputsVals,
        Event.printUsage], Outcome.finished) := by
  unfold nizkBranch
  simp only [h1, if_neg hm1, if_neg hm2]
  rfl

/-- The parse event always belongs to the pre-pipeline trace. -/
theorem parseCircuit_mem_preTrace (env : Env) :
    Event.parseCircuit ∈ preTrace env := by
  unfold preTrace
  simp

/-- On a pipeline run with a positive satisfiability check and a bad (or
missing) variant flag, the run is: the usage message, then file opens and
parse, then the satisfiability event, then the preprocessing branch. -/
theorem main_flagBad_shape {env : Env} {r : R1cs}
    (hr : env.pipelineR1cs = some r) (hsat : env.isSatFn r = RResult.Ok true)
    (hpf : parseVariantFlag env.args = (false, [Event.printUsage])) :
    ∃ mid, main env = (Event.printUsage :: (mid ++
        Event.isSatCheck (RResult.Ok true) :: (snarkBranch env r).1),
      (snarkBranch env r).2) ∧
      Event.parseCircuit ∈ mid ∧
      ∀ e ∈ mid, (∃ q, e = Event.openFile q) ∨ e = Event.parseCircuit := by
  have hm := main_pipeline hr
  unfold satCont at hm
  rw [hsat] at hm
  have hcb : chosenBranch env r = snarkBranch env r := by
    unfold chosenBranch
    rw [hpf]
    simp
  rw [hcb] at hm
  refine ⟨(match env.args.get? 3, env.args.get? 4, env.args.get? 5 with
    | some circuitfn, some inputsfn, some witnessfn =>
        [Event.openFile inputsfn, Event.openFile circuitfn,
         Event.openFile witnessfn]
    | _, _, _ => []) ++ [Event.parseCircuit], ?_, by simp, ?_⟩
  · rw [hm]
    unfold preTrace
    rw [hpf]
    simp
  · intro e he
    rw [List.mem_append] at he
    rcases he with he | he
    · rcases h3 : env.args.get? 3 with _ | c <;> rw [h3] at he
      · simp at he
      rcases h4 : env.args.get? 4 with _ | i <;> rw [h4] at he
      · simp at he
      rcases h5 : env.args.get? 5 with _ | w <;> rw [h5] at he
      · simp at he
      simp only [List.mem_cons, List.not_mem_nil, or_false] at he
      rcases he with rfl | rfl | rfl
      · exact Or.inl ⟨i, rfl⟩
      · exact Or.inl ⟨c, rfl⟩
      · exact Or.inl ⟨w, rfl⟩
    · simp only [List.mem_singleton] at he
      exact Or.inr he

/-- A one-constraint example circuit: shape (1 constraint, 1 variable,
1 public input), public input 9, private variable 3. -/
def exR1cs : R1cs :=
  ⟨1, 1, 1, [(0, 0, 1)], [(0, 0, 1)], [(0, 2, 1)], [9], [3]⟩

/-- Same shape as `exR1cs` but different matrix coefficients. -/
def exR1cs2 : R1cs :=
  ⟨1, 1, 1, [(0, 0, 2)], [(0, 2, 3)], [(0, 1, 4)], [9], [3]⟩

/-- A file system holding the three interchange files. -/
def exFiles : String → Option (List Nat) := fun p =>
  if p = "circuit.zkif" ∨ p = "inputs.zkif" ∨ p = "witness.zkif" then
    some [0] else none

/-- A SNARK verify invocation on a satisfiable circuit whose backend
accepts both variants. -/
def envSnarkOk : Env where
  args := ["spzk", "verify", "--snark", "circuit.zkif", "inputs.zkif",
           "witness.zkif"]
  files := exFiles
  parseFn := fun _ _ _ => exR1cs
  isSatFn := fun _ => RResult.Ok true
  snarkEncode := fun _ => (⟨1⟩, ⟨2⟩)
  nizkVerifyOk := true
  snarkVerifyOk := true

/-- A NIZK verify invocation whose backend rejects the proof. -/
def envNizkVerifyFail : Env :=
  { envSnarkOk with
    args := ["spzk", "verify", "--nizk", "circuit.zkif", "inputs.zkif",
             "witness.zkif"]
    nizkVerifyOk := false }

/-- A verify invocation with an unrecognized variant flag. -/
def envBadFlag : Env :=
  { envSnarkOk with
    args := ["spzk", "verify", "--bogus", "circuit.zkif", "inputs.zkif",
             "witness.zkif"] }

/-- An invocation with an unrecognized mode and an unrecognized flag. -/
def envBadModeFlag : Env :=
  { envSnarkOk with
    args := ["spzk", "noop", "--bogus", "circuit.zkif", "inputs.zkif",
             "witness.zkif"] }

/-- An invocation with the recognized flag `--nizk` but an unrecognized
mode. -/
def envNizkBadMode : Env :=
  { envSnarkOk with
    args := ["spzk", "noop", "--nizk", "circuit.zkif", "inputs.zkif",
             "witness.zkif"] }

/-- An invocation naming a file that does not exist. -/
def envNoFile : Env :=
  { envSnarkOk with
    args := ["spzk", "verify", "--snark", "circuit.zkif", "missing.zkif",
             "witness.zkif"] }

/-- An invocation with only two command-line arguments. -/
def envShortArgs : Env :=
  { envSnarkOk with args := ["spzk", "prove"] }

/-- A NIZK verify invocation on a satisfiable circuit whose backend
accepts. -/
def envNizkOk : Env :=
  { envSnarkOk with
    args := ["spzk", "verify", "--nizk", "circuit.zkif", "inputs.zkif",
             "witness.zkif"] }

/-- C1: in every execution, in both the direct (NIZK) and preprocessing
(SNARK) variants, any `prove` call is preceded in the trace by an `is_sat`
check that returned `Ok(true)`; and when `is_sat` returns `Ok(false)` the
run never reaches a `prove` call. -/
theorem c1_sat_checked_before_prove (env : Env) :
    (∀ e ∈ (main env).1, e.isProve = true →
      ∃ l₁ l₂, (main env).1 = l₁ ++ Event.isSatCheck (RResult.Ok true) :: l₂ ∧
        e ∈ l₂) ∧
    (Event.isSatCheck (RResult.Ok false) ∈ (main env).1 →
      ∀ e ∈ (main env).1, e.isProve = false) := by
  constructor
  · intro e he hp
    have hb : e.isBranchEvent = true := by
      cases e <;> simp [Event.isProve] at hp <;> simp [Event.isBranchEvent]
    rcases branch_event_cases he hb with ⟨r, hpr, hres, heb, hm⟩
    refine ⟨preTrace env, (chosenBranch env r).1, ?_, heb⟩
    rw [hm]
  · intro hfalse e he
    by_contra hne
    have hp : e.isProve = true := by simpa using hne
    have hb : e.isBranchEvent = true := by
      cases e <;> simp [Event.isProve] at hp <;> simp [Event.isBranchEvent]
    rcases branch_event_cases he hb with ⟨r, hpr, hres, heb, hm⟩
    rw [hm] at hfalse
    simp only [List.mem_append, List.mem_cons] at hfalse
    rcases hfalse with hf | hf | hf
    · rcases mem_preTrace_kinds hf with h | ⟨q, h⟩ | h <;> simp at h
    · simp at hf
    · exact absurd rfl ((chosenBranch_no_pre hf).2.1 _)

/-- C1 witness: on the concrete preprocessing run `envSnarkOk` the prove
call sits strictly after the positive satisfiability event. -/
theorem c1_witness :
    ∃ l₁ l₂, (main envSnarkOk).1 =
        l₁ ++ Event.isSatCheck (RResult.Ok true) :: l₂ ∧
      Event.snarkProveCall ⟨2⟩ [9] ∈ l₂ :=
  (c1_sat_checked_before_prove envSnarkOk).1 (Event.snarkProveCall ⟨2⟩ [9])
    (by decide) (by decide)

/-- C4: within a run the prover and verifier transcripts carry the same
label; any run that proves with the direct variant uses the direct label,
any run that proves with the preprocessing variant uses the preprocessing
label, and the two labels differ. -/
theorem c4_transcript_labels (env : Env) :
    (∀ l₁ l₂, Event.newTranscript Role.prover l₁ ∈ (main env).1 →
      Event.newTranscript Role.verifier l₂ ∈ (main env).1 → l₁ = l₂) ∧
    (∀ i l, Event.nizkProveCall i ∈ (main env).1 →
      Event.newTranscript Role.prover l ∈ (main env).1 → l = nizkLabel) ∧
    (∀ d i l, Event.snarkProveCall d i ∈ (main env).1 →
      Event.newTranscript Role.prover l ∈ (main env).1 → l = snarkLabel) ∧
    nizkLabel ≠ snarkLabel := by
  refine ⟨?_, ?_, ?_, by decide⟩
  · intro l₁ l₂ h1 h2
    rcases branch_event_cases h1 (by simp [Event.isBranchEvent]) with
      ⟨r1, hpr1, -, hb1, -⟩
    rcases branch_event_cases h2 (by simp [Event.isBranchEvent]) with
      ⟨r2, hpr2, -, hb2, -⟩
    rcases transcript_mem_elim hb1 with ⟨hf1, rfl⟩ | ⟨hf1, rfl⟩ <;>
      rcases transcript_mem_elim hb2 with ⟨hf2, rfl⟩ | ⟨hf2, rfl⟩
    · rfl
    · rw [hf1] at hf2; cases hf2
    · rw [hf1] at hf2; cases hf2
    · rfl
  · intro i l hprove htr
    rcases branch_event_cases hprove (by simp [Event.isBranchEvent]) with
      ⟨r1, hpr1, -, hb1, -⟩
    rcases branch_event_cases htr (by simp [Event.isBranchEvent]) with
      ⟨r2, hpr2, -, hb2, -⟩
    have hf1 := (nizkProve_mem_elim hb1).1
    rcases transcript_mem_elim hb2 with ⟨-, rfl⟩ | ⟨hf2, rfl⟩
    · rfl
    · rw [hf1] at hf2; cases hf2
  · intro d i l hprove htr
    rcases branch_event_cases hprove (by simp [Event.isBranchEvent]) with
      ⟨r1, hpr1, -, hb1, -⟩
    rcases branch_event_cases htr (by simp [Event.isBranchEvent]) with
      ⟨r2, hpr2, -, hb2, -⟩
    have hf1 := (snarkProve_mem_elim hb1).1
    rcases transcript_mem_elim hb2 with ⟨hf2, rfl⟩ | ⟨-, rfl⟩
    · rw [hf1] at hf2; cases hf2
    · rfl

/-- C4 witness: on the concrete direct run `envNizkOk` the prover and
verifier transcript labels coincide, and the two variant labels differ. -/
theorem c4_witness : nizkLabel = nizkLabel ∧ nizkLabel ≠ snarkLabel :=
  ⟨(c4_transcript_labels envNizkOk).1 nizkLabel nizkLabel (by decide)
    (by decide), (c4_transcript_labels envNizkOk).2.2.2⟩

/-- C5: the pair produced by `SNARK::encode` flows as the spec says: the
decommitment is the one `SNARK::prove` receives, every SNARK verify call
receives exactly the commitment (the decommitment is never among a verify
call's arguments, which carry only a `Commitment`). -/
theorem c5_commitment_flow (env : Env) (c : Commitment) (d : Decommitment)
    (h : Event.encodeCall c d ∈ (main env).1) :
    (∃ i, Event.snarkProveCall d i ∈ (main env).1) ∧
    (∀ d' i, Event.snarkProveCall d' i ∈ (main env).1 → d' = d) ∧
    (∀ c' i, Event.snarkVerifyCall c' i ∈ (main env).1 → c' = c) := by
  rcases branch_event_cases h (by simp [Event.isBranchEvent]) with
    ⟨r, hpr, hres, hb, hm⟩
  rcases encode_mem_elim hb with ⟨hflag, rfl, rfl⟩
  have hcb : chosenBranch env r = snarkBranch env r := by
    unfold chosenBranch
    rw [if_neg (by simp [hflag])]
  refine ⟨⟨r.inputsVals, ?_⟩, ?_, ?_⟩
  · rw [hm]
    rcases snarkBranch_prefix env r with ⟨rest, hrest⟩
    rw [hcb, hrest]
    simp
  · intro d' i hd'
    rcases branch_event_cases hd' (by simp [Event.isBranchEvent]) with
      ⟨r2, hpr2, -, hb2, -⟩
    have : r2 = r := by rw [hpr] at hpr2; exact (Option.some.inj hpr2).symm
    subst this
    exact (snarkProve_mem_elim hb2).2.1
  · intro c' i hc'
    rcases branch_event_cases hc' (by simp [Event.isBranchEvent]) with
      ⟨r2, hpr2, -, hb2, -⟩
    have : r2 = r := by rw [hpr] at hpr2; exact (Option.some.inj hpr2).symm
    subst this
    exact (snarkVerify_mem_elim hb2).2.1

/-- C5 witness: on the concrete preprocessing run `envSnarkOk`, encode
produced commitment 1 and decommitment 2; the prove call carries
decommitment 2 and the verify call carries commitment 1. -/
theorem c5_witness :
    (∃ i, Event.snarkProveCall ⟨2⟩ i ∈ (main envSnarkOk).1) ∧
    (∀ d' i, Event.snarkProveCall d' i ∈ (main envSnarkOk).1 → d' = ⟨2⟩) ∧
    (∀ c' i, Event.snarkVerifyCall c' i ∈ (main envSnarkOk).1 → c' = ⟨1⟩) :=
  c5_commitment_flow envSnarkOk ⟨1⟩ ⟨2⟩ (by decide)

/-- C6: in every execution of either variant, the public assignment
argument of every prove call equals that of every verify call. -/
theorem c6_same_public_assignment (env : Env) :
    ∀ e₁ e₂, e₁ ∈ (main env).1 → e₂ ∈ (main env).1 →
      e₁.isProve = true → e₂.isVerify = true →
      e₁.inputsArg = e₂.inputsArg := by
  intro e₁ e₂ h1 h2 hp hv
  rcases branch_event_cases h1
      (by cases e₁ <;> simp [Event.isProve] at hp <;>
        simp [Event.isBranchEvent]) with ⟨r1, hpr1, -, hb1, -⟩
  rcases branch_event_cases h2
      (by cases e₂ <;> simp [Event.isVerify] at hv <;>
        simp [Event.isBranchEvent]) with ⟨r2, hpr2, -, hb2, -⟩
  have : r2 = r1 := by rw [hpr1] at hpr2; exact (Option.some.inj hpr2).symm
  subst this
  cases e₁ <;> simp [Event.isProve] at hp <;>
    cases e₂ <;> simp [Event.isVerify] at hv
  · rcases nizkProve_mem_elim hb1 with ⟨-, rfl⟩
    rcases nizkVerify_mem_elim hb2 with ⟨-, rfl⟩
    rfl
  · rcases nizkProve_mem_elim hb1 with ⟨hf1, rfl⟩
    rcases snarkVerify_mem_elim hb2 with ⟨hf2, -, rfl⟩
    rw [hf1] at hf2; cases hf2
  · rcases snarkProve_mem_elim hb1 with ⟨hf1, -, rfl⟩
    rcases nizkVerify_mem_elim hb2 with ⟨hf2, rfl⟩
    rw [hf2] at hf1; cases hf1
  · rcases snarkProve_mem_elim hb1 with ⟨-, -, rfl⟩
    rcases snarkVerify_mem_elim hb2 with ⟨-, -, rfl⟩
    rfl

/-- C6 witness: on the concrete preprocessing run `envSnarkOk` the prove
and verify calls carry the same public assignment. -/
theorem c6_witness :
    (Event.snarkProveCall ⟨2⟩ [9]).inputsArg =
      (Event.snarkVerifyCall ⟨1⟩ [9]).inputsArg :=
  c6_same_public_assignment envSnarkOk _ _ (by decide) (by decide)
    (by decide) (by decide)

/-- C2 counterexample: on the concrete direct run `envNizkVerifyFail` the
backend rejects the proof and the orchestrator aborts the process through
the failed `assert!` instead of returning the failure as a `Result`. -/
theorem c2_counterexample :
    Event.nizkVerifyCall [9] ∈ (main envNizkVerifyFail).1 ∧
    envNizkVerifyFail.nizkVerifyOk = false ∧
    (main envNizkVerifyFail).2 = Outcome.panicked PanicReason.assertFailed := by
  decide

/-- C2 amended: for every proof whose verification fails, the orchestrator
aborts the process through the failed `assert!(proof.verify(..).is_ok())`;
it does not return the failure as a normal `Result` value. -/
theorem c2_failed_verification_aborts (env : Env) :
    (∀ i, Event.nizkVerifyCall i ∈ (main env).1 → env.nizkVerifyOk = false →
      (main env).2 = Outcome.panicked PanicReason.assertFailed) ∧
    (∀ c i, Event.snarkVerifyCall c i ∈ (main env).1 →
      env.snarkVerifyOk = false →
      (main env).2 = Outcome.panicked PanicReason.assertFailed) :=
  ⟨fun _ hi hv => verifyFail_nizk hi hv,
   fun _ _ hi hv => verifyFail_snark hi hv⟩

/-- C2 witness: the amended behaviour on the concrete run
`envNizkVerifyFail`. -/
theorem c2_witness :
    (main envNizkVerifyFail).2 = Outcome.panicked PanicReason.assertFailed :=
  (c2_failed_verification_aborts envNizkVerifyFail).1 [9] (by decide)
    (by decide)

/-- C3 counterexample: with the unrecognized variant flag `--bogus` the
program prints the usage message yet still parses, proves, and verifies —
the proof pipeline does execute. -/
theorem c3_counterexample :
    Event.printUsage ∈ (main envBadFlag).1 ∧
    Event.parseCircuit ∈ (main envBadFlag).1 ∧
    Event.snarkProveCall ⟨2⟩ [9] ∈ (main envBadFlag).1 ∧
    Event.snarkVerifyCall ⟨1⟩ [9] ∈ (main envBadFlag).1 ∧
    (main envBadFlag).2 = Outcome.finished := by
  decide

/-- C3 amended: an unrecognized (or missing) variant flag prints the usage
message but defaults to the preprocessing variant and still runs the full
pipeline (parse, encode, prove); an unrecognized mode — under either
variant flag — also prints the usage message after proving: parsing and
proving have already executed, only the verification step is skipped, and
the run finishes normally. -/
theorem c3_usage_printed_but_pipeline_runs (env : Env) (r : R1cs)
    (hr : env.pipelineR1cs = some r)
    (hsat : env.isSatFn r = RResult.Ok true) :
    ((∀ v, env.args.get? 2 = some v → v ≠ "--nizk" ∧ v ≠ "--snark") →
      Event.printUsage ∈ (main env).1 ∧
      Event.parseCircuit ∈ (main env).1 ∧
      Event.snarkProveCall (env.snarkEncode r).2 r.inputsVals ∈ (main env).1 ∧
      (∀ i, Event.nizkProveCall i ∉ (main env).1)) ∧
    (∀ m, env.args.get? 1 = some m → m ≠ "prove" → m ≠ "verify" →
      Event.printUsage ∈ (main env).1 ∧
      Event.parseCircuit ∈ (main env).1 ∧
      (∃ e ∈ (main env).1, e.isProve = true) ∧
      (∀ e ∈ (main env).1, e.isVerify = false) ∧
      (main env).2 = Outcome.finished) := by
  constructor
  · intro hflag
    have hpf := parseVariantFlag_bad hflag
    rcases main_flagBad_shape hr hsat hpf with ⟨mid, hm, hparse, hmid⟩
    rcases snarkBranch_prefix env r with ⟨rest, hrest⟩
    refine ⟨?_, ?_, ?_, ?_⟩
    · rw [hm]; simp
    · rw [hm]; simp [hparse]
    · rw [hm, hrest]; simp
    · intro i hmem
      rcases branch_event_cases hmem (by simp [Event.isBranchEvent]) with
        ⟨r2, hpr2, -, hb2, -⟩
      have hf := (nizkProve_mem_elim hb2).1
      rw [hpf] at hf
      simp at hf
  · intro m h1 hm1 hm2
    have hm := main_pipeline hr
    unfold satCont at hm
    rw [hsat] at hm
    by_cases hf : (parseVariantFlag env.args).1 = true
    · have hcb : chosenBranch env r = nizkBranch env r := by
        unfold chosenBranch
        rw [if_pos hf]
      rw [hcb] at hm
      have hbm := nizkBranch_badMode (r := r) h1 hm1 hm2
      have htr : (nizkBranch env r).1 =
          [Event.nizkParamsCall r.nizk_public_params,
           Event.newTranscript Role.prover nizkLabel,
           Event.nizkProveCall r.inputsVals,
           Event.printUsage] := by rw [hbm]
      refine ⟨?_, ?_, ?_, ?_, ?_⟩
      · rw [hm, htr]; simp
      · rw [hm]; simp [parseCircuit_mem_preTrace]
      · refine ⟨Event.nizkProveCall r.inputsVals, ?_, rfl⟩
        rw [hm, htr]; simp
      · intro e he
        rw [hm, htr] at he
        simp only [List.mem_append, List.mem_cons, List.not_mem_nil,
          or_false] at he
        rcases he with he | rfl | rfl | rfl | rfl | rfl
        · rcases mem_preTrace_kinds he with rfl | ⟨q, rfl⟩ | rfl <;> rfl
        all_goals rfl
      · rw [hm]
        show (nizkBranch env r).2 = Outcome.finished
        rw [hbm]
    · have hcb : chosenBranch env r = snarkBranch env r := by
        unfold chosenBranch
        rw [if_neg hf]
      rw [hcb] at hm
      have hbm := snarkBranch_badMode (r := r) h1 hm1 hm2
      have htr : (snarkBranch env r).1 =
          [Event.snarkParamsCall r.snark_public_params,
           Event.encodeCall (env.snarkEncode r).1 (env.snarkEncode r).2,
           Event.newTranscript Role.prover snarkLabel,
           Event.snarkProveCall (env.snarkEncode r).2 r.inputsVals,
           Event.printUsage] := by rw [hbm]
      refine ⟨?_, ?_, ?_, ?_, ?_⟩
      · rw [hm, htr]; simp
      · rw [hm]; simp [parseCircuit_mem_preTrace]
      · refine ⟨Event.snarkProveCall (env.snarkEncode r).2 r.inputsVals,
          ?_, rfl⟩
        rw [hm, htr]; simp
      · intro e he
        rw [hm, htr] at he
        simp only [List.mem_append, List.mem_cons, List.not_mem_nil,
          or_false] at he
        rcases he with he | rfl | rfl | rfl | rfl | rfl | rfl
        · rcases mem_preTrace_kinds he with rfl | ⟨q, rfl⟩ | rfl <;> rfl
        all_goals rfl
      · rw [hm]
        show (snarkBranch env r).2 = Outcome.finished
        rw [hbm]

/-- C3 witness: the amended behaviour on two concrete runs — one with
both the mode and the variant flag unrecognized, and one with the
recognized flag `--nizk` but an unrecognized mode.  In both, the usage
message is printed, proving has executed, and the run finishes. -/
theorem c3_witness :
    (Event.printUsage ∈ (main envBadModeFlag).1 ∧
      (main envBadModeFlag).2 = Outcome.finished) ∧
    (Event.printUsage ∈ (main envNizkBadMode).1 ∧
      (∃ e ∈ (main envNizkBadMode).1, e.isProve = true) ∧
      (main envNizkBadMode).2 = Outcome.finished) := by
  constructor
  · have hflag : ∀ v, envBadModeFlag.args.get? 2 = some v →
        v ≠ "--nizk" ∧ v ≠ "--snark" := by
      intro v hv
      have h2 : envBadModeFlag.args.get? 2 = some "--bogus" := rfl
      rw [h2] at hv
      cases Option.some.inj hv
      exact ⟨by decide, by decide⟩
    have h := (c3_usage_printed_but_pipeline_runs envBadModeFlag exR1cs
      (by decide) (by decide)).1 hflag
    have h2 := (c3_usage_printed_but_pipeline_runs envBadModeFlag exR1cs
      (by decide) (by decide)).2 "noop" rfl (by decide) (by decide)
    exact ⟨h.1, h2.2.2.2.2⟩
  · have h := (c3_usage_printed_but_pipeline_runs envNizkBadMode exR1cs
      (by decide) (by decide)).2 "noop" rfl (by decide) (by decide)
    exact ⟨h.1, h.2.2.1, h.2.2.2.2⟩

/-- C7: the reference program aborts the host process on each of: a file
that cannot be opened (`File::open(..).unwrap()`), an unsatisfied circuit
or an evaluation error from `is_sat` (`std::panic!`), and a failed proof
verification (`assert!`). -/
theorem c7_reference_aborts (env : Env) :
    (∀ p, Event.openFile p ∈ (main env).1 → env.files p = none →
      (main env).2 = Outcome.panicked PanicReason.unwrapFileOpen) ∧
    (Event.isSatCheck (RResult.Ok false) ∈ (main env).1 →
      (main env).2 = Outcome.panicked PanicReason.unsatCircuit) ∧
    (∀ msg, Event.isSatCheck (RResult.Err msg) ∈ (main env).1 →
      (main env).2 = Outcome.panicked PanicReason.evalError) ∧
    (∀ i, Event.nizkVerifyCall i ∈ (main env).1 → env.nizkVerifyOk = false →
      (main env).2 = Outcome.panicked PanicReason.assertFailed) ∧
    (∀ c i, Event.snarkVerifyCall c i ∈ (main env).1 →
      env.snarkVerifyOk = false →
      (main env).2 = Outcome.panicked PanicReason.assertFailed) :=
  ⟨fun _ hp hf => fileOpen_panic hp hf,
   fun h => unsat_panic h,
   fun _ h => evalErr_panic h,
   fun _ hi hv => verifyFail_nizk hi hv,
   fun _ _ hi hv => verifyFail_snark hi hv⟩

/-- C7 witness: the concrete run naming a nonexistent inputs file aborts
through the `unwrap` on `File::open`. -/
theorem c7_witness :
    (main envNoFile).2 = Outcome.panicked PanicReason.unwrapFileOpen :=
  (c7_reference_aborts envNoFile).1 "missing.zkif" (by decide) (by decide)

/-- C8: parameter derivation for both variants is a pure function of the
instance shape `(num_constraints, num_variables, num_public_inputs)`: two
circuits of identical shape yield equal parameters regardless of their
constraint coefficients, and (being Lean functions) two calls on the same
shape are deterministic and side-effect-free by construction. -/
theorem c8_params_pure_in_shape (r₁ r₂ : R1cs)
    (hc : r₁.numCons = r₂.numCons) (hv : r₁.numVars = r₂.numVars)
    (hi : r₁.numInputs = r₂.numInputs) :
    r₁.nizk_public_params = r₂.nizk_public_params ∧
    r₁.snark_public_params = r₂.snark_public_params := by
  unfold R1cs.nizk_public_params R1cs.snark_public_params
  rw [hc, hv, hi]
  exact ⟨rfl, rfl⟩

/-- C8 witness: two concrete circuits of the same shape but different
matrices get equal parameters. -/
theorem c8_witness :
    exR1cs.matA ≠ exR1cs2.matA ∧
    exR1cs.nizk_public_params = exR1cs2.nizk_public_params ∧
    exR1cs.snark_public_params = exR1cs2.snark_public_params :=
  ⟨by decide, c8_params_pure_in_shape exR1cs exR1cs2 rfl rfl rfl⟩

/-- C9: when the variant flag is absent or unrecognized the program
defaults to the preprocessing (SNARK) variant and, after printing the
usage message first, runs the full pipeline (parameters, encode, prove),
never the direct variant. -/
theorem c9_default_snark_runs (env : Env) (r : R1cs)
    (hr : env.pipelineR1cs = some r)
    (hsat : env.isSatFn r = RResult.Ok true)
    (hflag : ∀ v, env.args.get? 2 = some v → v ≠ "--nizk" ∧ v ≠ "--snark") :
    ∃ rest, (main env).1 = Event.printUsage :: rest ∧
      Event.snarkParamsCall r.snark_public_params ∈ rest ∧
      Event.encodeCall (env.snarkEncode r).1 (env.snarkEncode r).2 ∈ rest ∧
      Event.snarkProveCall (env.snarkEncode r).2 r.inputsVals ∈ rest ∧
      ∀ i, Event.nizkProveCall i ∉ (main env).1 := by
  have hpf := parseVariantFlag_bad hflag
  rcases main_flagBad_shape hr hsat hpf with ⟨mid, hm, -, -⟩
  rcases snarkBranch_prefix env r with ⟨brest, hrest⟩
  refine ⟨mid ++ Event.isSatCheck (RResult.Ok true) :: (snarkBranch env r).1,
    by rw [hm], ?_, ?_, ?_, ?_⟩
  · rw [hrest]; simp
  · rw [hrest]; simp
  · rw [hrest]; simp
  · intro i hmem
    rcases branch_event_cases hmem (by simp [Event.isBranchEvent]) with
      ⟨r2, hpr2, -, hb2, -⟩
    have hf := (nizkProve_mem_elim hb2).1
    rw [hpf] at hf
    simp at hf

/-- C9 witness: the default-to-SNARK behaviour on the concrete run with
the unrecognized flag `--bogus`. -/
theorem c9_witness :
    ∃ rest, (main envBadFlag).1 = Event.printUsage :: rest ∧
      Event.snarkParamsCall exR1cs.snark_public_params ∈ rest ∧
      Event.encodeCall ⟨1⟩ ⟨2⟩ ∈ rest ∧
      Event.snarkProveCall ⟨2⟩ [9] ∈ rest ∧
      ∀ i, Event.nizkProveCall i ∉ (main envBadFlag).1 := by
  have hflag : ∀ v, envBadFlag.args.get? 2 = some v →
      v ≠ "--nizk" ∧ v ≠ "--snark" := by
    intro v hv
    have h2 : envBadFlag.args.get? 2 = some "--bogus" := rfl
    rw [h2] at hv
    cases Option.some.inj hv
    exact ⟨by decide, by decide⟩
  exact c9_default_snark_runs envBadFlag exR1cs (by decide) (by decide) hflag

/-- C10: an invocation with fewer than six command-line arguments panics
through `Option::unwrap` on a missing argument instead of exiting
cleanly. -/
theorem c10_missing_args_panic (env : Env) (h : env.args.length < 6) :
    (main env).2 = Outcome.panicked PanicReason.unwrapMissingArg := by
  unfold main
  rcases h0 : env.args.get? 0 with _ | a0 <;> simp only [h0]
  have h5 : env.args.get? 5 = none := List.get?_eq_none.mpr (by omega)
  rcases h3 : env.args.get? 3 with _ | c <;> simp only [h3]
  rcases h4 : env.args.get? 4 with _ | i <;> simp only [h4]
  simp only [h5]

/-- C10 witness: the concrete two-argument invocation panics on the
missing path argument. -/
theorem c10_witness :
    envShortArgs.args.length < 6 ∧
    (main envShortArgs).2 = Outcome.panicked PanicReason.unwrapMissingArg :=
  ⟨by decide, c10_missing_args_panic envShortArgs (by decide)⟩

end SpartanZkif
